import Mathlib

/-!
# Font module binding (`src/modules/font/wrap_Font.cpp`)

A shallow embedding of the five wrapper functions of the font module
(`w_newRasterizer`, `w_newTrueTypeRasterizer`, `w_newBMFontRasterizer`,
`w_newImageRasterizer`, `w_newGlyphData`) together with the helper
`convimagedata`.

A wrapper is a function from the argument stack to a `Run`: the ordered list of
observable events (reference-count changes made by the binding, calls into the
core font module, objects pushed to the host) and the way the call ends
(normal return, error on the error channel of the host, or a core exception that
leaves the wrapper without having been caught).

The core font module (`Font.h`), the filesystem helper `luax_getfiledata`, the
object conversion `luax_convobj` and the string/number coercions of the host are
not part of the file; they are the fields of `Env`, and every theorem holds for
every `Env`.

Host numbers are doubles (`LuaNumber`). The C conversions of a double to `int`
and to `uint32` are defined by C only while the truncated value fits; outside
that range they are modelled as compiled for x86-64 (`number2integer`).
-/

namespace Love.Font

/-! ## Host values -/

/-- Type tags of the engine objects the binding tests for. -/
inductive LoveType
  | file
  | fileData
  | imageData
  | rasterizer
  | glyphData
  | unrelated
  deriving DecidableEq, Repr

/-- A host number, an IEEE double: a finite value `m * 2^e`, an infinity, or a
NaN. Every finite double has this form (`65.5` is `finite 131 (-1)`). -/
inductive LuaNumber
  | finite (m : Int) (e : Int)
  | inf (negative : Bool)
  | nan
  deriving DecidableEq, Repr

/-- The number with the integer value `n`. -/
def LuaNumber.ofInt (n : Int) : LuaNumber := .finite n 0

/-- The value of a number with its fractional part discarded (rounding toward
zero); an infinity or a NaN has none. -/
def LuaNumber.trunc : LuaNumber → Option Int
  | .finite m e =>
    if 0 ≤ e then some (m * ((2 ^ e.toNat : Nat) : Int))
    else some (Int.tdiv m ((2 ^ (-e).toNat : Nat) : Int))
  | .inf _ => none
  | .nan => none

/-- A value on the host stack. A number is a double; a table is represented by
its array part `t[1], ..., t[#t]`; a userdata by the type tag and the identity
of the engine object it wraps. -/
inductive LuaValue
  | nil
  | boolean (b : Bool)
  | number (x : LuaNumber)
  | string (s : String)
  | table (arr : List LuaValue)
  | userdata (t : LoveType) (id : Nat)
  | function

/-- The argument stack of a call: `L[1]` is the first argument. -/
abbrev Stack := List LuaValue

def LUA_TNONE : Int := -1
def LUA_TNIL : Int := 0
def LUA_TBOOLEAN : Int := 1
def LUA_TNUMBER : Int := 3
def LUA_TSTRING : Int := 4
def LUA_TTABLE : Int := 5
def LUA_TFUNCTION : Int := 6
def LUA_TUSERDATA : Int := 7

/-- The value at a (positive) stack index, `none` when the index is not valid. -/
def index2adr (L : Stack) (idx : Nat) : Option LuaValue :=
  if idx = 0 then none else L.get? (idx - 1)

/-- Type code of a value. -/
def ttype : LuaValue → Int
  | .nil => LUA_TNIL
  | .boolean _ => LUA_TBOOLEAN
  | .number _ => LUA_TNUMBER
  | .string _ => LUA_TSTRING
  | .table _ => LUA_TTABLE
  | .userdata _ _ => LUA_TUSERDATA
  | .function => LUA_TFUNCTION

def lua_type (L : Stack) (idx : Nat) : Int :=
  match index2adr L idx with
  | none => LUA_TNONE
  | some v => ttype v

def lua_gettop (L : Stack) : Nat := L.length

/-- The test `lua_isnoneornil(L, n)` is `lua_type(L, n) <= 0`. -/
def lua_isnoneornil (L : Stack) (idx : Nat) : Bool :=
  decide (lua_type L idx ≤ 0)

/-- The test `lua_isstring` accepts strings and numbers (a number converts to a string). -/
def isstring : Option LuaValue → Bool
  | some (.string _) => true
  | some (.number _) => true
  | _ => false

def lua_isstring (L : Stack) (idx : Nat) : Bool := isstring (index2adr L idx)

def lua_istable (L : Stack) (idx : Nat) : Bool :=
  decide (lua_type L idx = LUA_TTABLE)

/-- The test `luax_istype`: the value is a userdata wrapping an object of the given type. -/
def luax_istype : Option LuaValue → LoveType → Bool
  | some (.userdata t _), ty => decide (t = ty)
  | _, _ => false

/-! ## Events, outcomes, runs -/

/-- The calls the binding makes into the core font module. -/
inductive CoreCall
  | newRasterizer (d : Nat)
  | newTrueTypeRasterizerSize (size : Int)
  | newTrueTypeRasterizer (d : Nat) (size : Int)
  | newBMFontRasterizer (d : Nat) (images : List Nat)
  | newImageRasterizer (d : Nat) (glyphs : String)
  | newGlyphDataText (r : Nat) (glyph : String)
  | newGlyphDataCode (r : Nat) (g : Nat)
  deriving DecidableEq, Repr

/-- Errors raised on the error channel of the host. -/
inductive LuaError
  | typerror (narg : Int) (tname : String)
  | argerror (narg : Int) (msg : String)
  | exception (what : String)
  | collaborator (msg : String)
  deriving DecidableEq, Repr

/-- Observable effects of the binding, in program order. -/
inductive Event
  | retain (t : LoveType) (id : Nat)
  | release (t : LoveType) (id : Nat)
  | call (c : CoreCall)
  | pushtype (t : LoveType) (id : Nat)
  deriving DecidableEq, Repr

/-- How a piece of binding code ends: it returns, it raises an error on the
error channel of the host, or a core exception propagates out of it. -/
inductive Outcome (α : Type)
  | ok (a : α)
  | luaError (e : LuaError)
  | uncaught (what : String)

/-- Events produced and the outcome. -/
structure Run (α : Type) where
  events : List Event
  outcome : Outcome α

def Run.pure {α : Type} (a : α) : Run α := ⟨[], .ok a⟩

/-- Sequencing: the continuation runs only after a normal return. -/
def Run.bind {α β : Type} (x : Run α) (f : α → Run β) : Run β :=
  match x.outcome with
  | .ok a => ⟨x.events ++ (f a).events, (f a).outcome⟩
  | .luaError e => ⟨x.events, .luaError e⟩
  | .uncaught w => ⟨x.events, .uncaught w⟩

instance : Monad Run where
  pure := Run.pure
  bind := Run.bind

def emit (e : Event) : Run Unit := ⟨[e], .ok ()⟩

def raise {α : Type} (e : LuaError) : Run α := ⟨[], .luaError e⟩

def ofExcept {α : Type} : Except LuaError α → Run α
  | .ok a => ⟨[], .ok a⟩
  | .error e => ⟨[], .luaError e⟩

/-! ## Collaborators -/

/-- What the binding calls but does not define.
* `core c`: the core font module; returns the identity of the new object or
  throws an exception with the given message.
* `getfiledata v`: the FileData that `luax_getfiledata` obtains from the value
  at the index (`none`: no value there), or the error it raises.
* `convobj v`: the result of `luax_convobj(L, idx, "image", "newImageData")`.
* `str2number s`: the string-to-number coercion.
* `number2str n`: the number-to-string coercion. -/
structure Env where
  core : CoreCall → Except String Nat
  getfiledata : Option LuaValue → Except LuaError Nat
  convobj : LuaValue → Except LuaError LuaValue
  str2number : String → Option LuaNumber
  number2str : LuaNumber → String

/-- A call `instance()->f(args)`: recorded, then it returns or throws. -/
def coreCall (env : Env) (c : CoreCall) : Run Nat :=
  match env.core c with
  | .ok t => ⟨[.call c], .ok t⟩
  | .error w => ⟨[.call c], .uncaught w⟩

/-- Modelled from the spec: `luax_catchexcept` (common/runtime.h) is not among
the sources. The function runs; an exception it throws is caught; the finaliser
then runs in either case; a caught exception is finally raised on the error
channel of the host with the message of the exception. -/
def luax_catchexcept {α : Type} (func : Run α) (finallyfunc : Run Unit) : Run α :=
  match func.outcome with
  | .ok a => ⟨func.events ++ finallyfunc.events, .ok a⟩
  | .uncaught w => ⟨func.events ++ finallyfunc.events, .luaError (.exception w)⟩
  | .luaError e => ⟨func.events, .luaError e⟩

/-- The two-argument form `luax_catchexcept(L, func)` has no finaliser. -/
def luax_catchexcept1 {α : Type} (func : Run α) : Run α :=
  luax_catchexcept func (Run.pure ())

/-- Modelled from the spec: `luax_getfiledata` (filesystem/wrap_Filesystem.cpp)
is not among the sources. It returns a FileData carrying one reference owned by
the caller, or raises an error. -/
def luax_getfiledata (env : Env) (L : Stack) (idx : Nat) : Run Nat :=
  match env.getfiledata (index2adr L idx) with
  | .ok d => ⟨[.retain .fileData d], .ok d⟩
  | .error e => ⟨[], .luaError e⟩

/-- Modelled from the spec: `luax_checktype<T>` (common/runtime.h) is not among
the sources. It yields the object wrapped by a userdata of the requested type
and raises a type error for anything else. -/
def luax_checktype (ty : LoveType) (tname : String) (idx : Int) :
    Option LuaValue → Run Nat
  | some (.userdata t id) => if t = ty then Run.pure id else raise (.typerror idx tname)
  | _ => raise (.typerror idx tname)

/-- Modelled from the spec: `luax_pushtype` (common/runtime.h) is not among the
sources. It pushes a userdata wrapping the object. -/
def luax_pushtype (ty : LoveType) (id : Nat) : Run LuaValue :=
  ⟨[.pushtype ty id], .ok (.userdata ty id)⟩

/-- The C conversion of a double to a 64-bit signed integer (`lua_Integer`, and
the intermediate of the conversions below): the fractional part is discarded.
C defines the result only when the truncated value fits in 64 bits; for the
other doubles (too large, infinite, NaN) the value taken here is the one the
x86-64 conversion instruction delivers, `-2^63`. -/
def number2integer (x : LuaNumber) : Int :=
  match x.trunc with
  | some t =>
    if -9223372036854775808 ≤ t ∧ t < 9223372036854775808 then t
    else -9223372036854775808
  | none => -9223372036854775808

/-- The conversion `(int) lua_tointeger(L, idx)` of `luaL_checkint`: the 64-bit
integer of the number, narrowed to 32 bits (wrapping). -/
def toInt32 (x : LuaNumber) : Int :=
  (number2integer x + 2147483648) % 4294967296 - 2147483648

/-- The cast `(uint32) d` of a double: the low 32 bits of its 64-bit integer. -/
def toUInt32 (x : LuaNumber) : Nat := (number2integer x % 4294967296).toNat

/-- The check `luaL_checknumber`: it accepts numbers, and strings that convert to a number. -/
def luaL_checknumber (env : Env) (L : Stack) (idx : Nat) : Run LuaNumber :=
  match index2adr L idx with
  | some (.number n) => Run.pure n
  | some (.string s) =>
    match env.str2number s with
    | some n => Run.pure n
    | none => raise (.typerror idx "number")
  | _ => raise (.typerror idx "number")

/-- The check `luaL_checkint`: `(int) luaL_checkinteger(L, idx)`. -/
def luaL_checkint (env : Env) (L : Stack) (idx : Nat) : Run Int :=
  match index2adr L idx with
  | some (.number n) => Run.pure (toInt32 n)
  | some (.string s) =>
    match env.str2number s with
    | some n => Run.pure (toInt32 n)
    | none => raise (.typerror idx "number")
  | _ => raise (.typerror idx "number")

/-- The check `luaL_optint(L, idx, d)`: the default when the argument is none or nil. -/
def luaL_optint (env : Env) (L : Stack) (idx : Nat) (d : Int) : Run Int :=
  if lua_isnoneornil L idx then Run.pure d else luaL_checkint env L idx

/-- The check `luax_checkstring`: it accepts strings, and numbers converted to a string. -/
def luax_checkstring (env : Env) (L : Stack) (idx : Nat) : Run String :=
  match index2adr L idx with
  | some (.string s) => Run.pure s
  | some (.number n) => Run.pure (env.number2str n)
  | _ => raise (.typerror idx "string")

/-! ## The wrappers -/

def w_newTrueTypeRasterizer (env : Env) (L : Stack) : Run (List LuaValue) := do
  let t ←
    if lua_type L 1 = LUA_TNUMBER then do
      let size ← luaL_checkint env L 1
      luax_catchexcept1 (coreCall env (.newTrueTypeRasterizerSize size))
    else do
      let d ← luax_getfiledata env L 1
      let size ← luaL_optint env L 2 12
      luax_catchexcept (coreCall env (.newTrueTypeRasterizer d size))
        (emit (.release .fileData d))
  let v ← luax_pushtype .rasterizer t
  emit (.release .rasterizer t)
  pure [v]

/-- The static helper `convimagedata`, on the value at the index: a string, a
File or a FileData is replaced by the result of `newImageData`. -/
def convimagedata (env : Env) (v : LuaValue) : Run LuaValue :=
  if isstring (some v) || luax_istype (some v) .file || luax_istype (some v) .fileData then
    ofExcept (env.convobj v)
  else
    Run.pure v

/-- The body shared by the two loops of `w_newBMFontRasterizer`, on the value at
index `idx`: `convimagedata`, `luax_checktype<image::ImageData>`, `id->retain()`. -/
def takeImage (env : Env) (idx : Int) (v : LuaValue) : Run Nat :=
  Run.bind (convimagedata env v) fun w =>
  Run.bind (luax_checktype .imageData "ImageData" idx (some w)) fun id =>
  Run.bind (emit (.retain .imageData id)) fun _ =>
  Run.pure id

/-- The loop over the table at index 2. `lua_rawgeti` pushes `t[i]`, the body
works on that copy at index `-1` and appends to `images`, `lua_pop` removes the
copy. -/
def tableLoop (env : Env) : List LuaValue → List Nat → Run (List Nat)
  | [], images => Run.pure images
  | v :: rest, images =>
    Run.bind (takeImage env (-1) v) fun id =>
    tableLoop env rest (images ++ [id])

/-- The loop `for (int i = 2; i <= lua_gettop(L); i++)`: the list holds the
values at the indices `i, i+1, ..., top`. -/
def argLoop (env : Env) : List LuaValue → Nat → List Nat → Run (List Nat)
  | [], _, images => Run.pure images
  | v :: rest, i, images =>
    Run.bind (takeImage env i v) fun id =>
    argLoop env rest (i + 1) (images ++ [id])

/-- The array part of the table at the index (`lua_objlen`, `lua_rawgeti`). -/
def tableAt (L : Stack) (idx : Nat) : List LuaValue :=
  match index2adr L idx with
  | some (.table arr) => arr
  | _ => []

/-- The statements of `w_newBMFontRasterizer` that fill `images`. -/
def buildImages (env : Env) (L : Stack) : Run (List Nat) :=
  if lua_istable L 2 then tableLoop env (tableAt L 2) []
  else argLoop env (L.drop 1) 2 []

/-- The finaliser of `w_newBMFontRasterizer`:
`d->release(); for (auto id : images) id->release();`. -/
def releaseAll (d : Nat) (images : List Nat) : Run Unit :=
  ⟨.release .fileData d :: images.map (.release .imageData), .ok ()⟩

def w_newBMFontRasterizer (env : Env) (L : Stack) : Run (List LuaValue) := do
  let d ← luax_getfiledata env L 1
  let images ← buildImages env L
  let t ← luax_catchexcept (coreCall env (.newBMFontRasterizer d images))
    (releaseAll d images)
  let v ← luax_pushtype .rasterizer t
  emit (.release .rasterizer t)
  pure [v]

def w_newRasterizer (env : Env) (L : Stack) : Run (List LuaValue) :=
  if lua_isnoneornil L 2 then
    if lua_type L 1 = LUA_TNUMBER then
      w_newTrueTypeRasterizer env L
    else do
      let d ← luax_getfiledata env L 1
      let t ← luax_catchexcept (coreCall env (.newRasterizer d))
        (emit (.release .fileData d))
      let v ← luax_pushtype .rasterizer t
      emit (.release .rasterizer t)
      pure [v]
  else if lua_type L 2 = LUA_TNUMBER then
    w_newTrueTypeRasterizer env L
  else
    w_newBMFontRasterizer env L

def w_newImageRasterizer (env : Env) (L : Stack) : Run (List LuaValue) := do
  let w ← match index2adr L 1 with
    | some v => (fun x => some x) <$> convimagedata env v
    | none => pure none
  let d ← luax_checktype .imageData "ImageData" 1 w
  let glyphs ← luax_checkstring env L 2
  let t ← luax_catchexcept1 (coreCall env (.newImageRasterizer d glyphs))
  let v ← luax_pushtype .rasterizer t
  emit (.release .rasterizer t)
  pure [v]

def w_newGlyphData (env : Env) (L : Stack) : Run (List LuaValue) := do
  let r ← luax_checktype .rasterizer "Rasterizer" 1 (index2adr L 1)
  let t ←
    if lua_type L 2 = LUA_TSTRING then do
      let glyph ← luax_checkstring env L 2
      luax_catchexcept1 (coreCall env (.newGlyphDataText r glyph))
    else do
      let g ← luaL_checknumber env L 2
      coreCall env (.newGlyphDataCode r (toUInt32 g))
  let v ← luax_pushtype .glyphData t
  emit (.release .glyphData t)
  pure [v]

/-! ## Observations on a run -/

/-- The core calls among the events, in order. -/
def coreCalls : List Event → List CoreCall
  | [] => []
  | .call c :: es => c :: coreCalls es
  | _ :: es => coreCalls es

/-- Number of `retain` events for an object. -/
def retains (t : LoveType) (id : Nat) (es : List Event) : Nat :=
  es.count (.retain t id)

/-- Number of `release` events for an object. -/
def releases (t : LoveType) (id : Nat) (es : List Event) : Nat :=
  es.count (.release t id)

/-- Net change of the reference count of an object over the events. -/
def refDelta (t : LoveType) (id : Nat) (es : List Event) : Int :=
  (retains t id es : Int) - (releases t id es : Int)

/-- The call builds a TrueType source. -/
def CoreCall.isTrueType : CoreCall → Bool
  | .newTrueTypeRasterizerSize _ => true
  | .newTrueTypeRasterizer _ _ => true
  | _ => false

/-! ## A concrete collaborator environment

Used to evaluate the wrappers on concrete argument lists. -/

/-- Accepts a FileData userdata and nothing else. -/
def sampleGetfiledata : Option LuaValue → Except LuaError Nat
  | some (.userdata .fileData id) => .ok id
  | _ => .error (.argerror 1 "filename, File, or FileData expected")

/-- Reads a string of decimal digits, most significant first. -/
def sampleDigits : List Char → Nat → Option Nat
  | [], acc => some acc
  | c :: cs, acc =>
    if c.isDigit then sampleDigits cs (10 * acc + (c.toNat - 48)) else none

/-- A string-to-number coercion that knows non-empty strings of decimal digits
only. -/
def sampleStr2number (s : String) : Option LuaNumber :=
  match s.data with
  | [] => none
  | cs => (sampleDigits cs 0).map fun n => LuaNumber.ofInt n

/-- A number-to-string coercion that is right for the integers written
`finite m 0` of at most 14 digits and a placeholder elsewhere. -/
def sampleNumber2str : LuaNumber → String
  | .finite m 0 => toString m
  | _ => "?"

/-- An environment around a given core: FileData userdata are the only
descriptors, and no string decodes to an image. -/
def sampleEnv (core : CoreCall → Except String Nat) : Env where
  core := core
  getfiledata := sampleGetfiledata
  convobj := fun _ => .error (.collaborator "cannot decode image")
  str2number := sampleStr2number
  number2str := sampleNumber2str

/-- A core in which every constructor succeeds and yields object 100. -/
def coreOk : CoreCall → Except String Nat := fun _ => .ok 100

/-- A core in which every constructor throws. -/
def coreThrows : CoreCall → Except String Nat := fun _ => .error "core failure"

/-! ## Theorems -/

theorem bind_def {α β : Type} (x : Run α) (f : α → Run β) : (x >>= f) = Run.bind x f := rfl

theorem pure_def {α : Type} (a : α) : (pure a : Run α) = Run.pure a := rfl

/-- The generic branch of `w_newRasterizer`, when the core call returns. -/
theorem generic_ok (env : Env) (L : Stack) (d t : Nat)
    (h2 : lua_isnoneornil L 2 = true) (h1 : lua_type L 1 ≠ LUA_TNUMBER)
    (hd : env.getfiledata (index2adr L 1) = .ok d)
    (ht : env.core (.newRasterizer d) = .ok t) :
    w_newRasterizer env L =
      ⟨[.retain .fileData d, .call (.newRasterizer d), .release .fileData d,
        .pushtype .rasterizer t, .release .rasterizer t],
       .ok [.userdata .rasterizer t]⟩ := by
  simp [w_newRasterizer, h2, h1, bind_def, pure_def, luax_getfiledata, hd, Run.bind, coreCall, ht,
    luax_catchexcept, emit, luax_pushtype, Run.pure]

/-- The generic branch of `w_newRasterizer`, when the core call throws. -/
theorem generic_throws (env : Env) (L : Stack) (d : Nat) (w : String)
    (h2 : lua_isnoneornil L 2 = true) (h1 : lua_type L 1 ≠ LUA_TNUMBER)
    (hd : env.getfiledata (index2adr L 1) = .ok d)
    (ht : env.core (.newRasterizer d) = .error w) :
    w_newRasterizer env L =
      ⟨[.retain .fileData d, .call (.newRasterizer d), .release .fileData d],
       .luaError (.exception w)⟩ := by
  simp [w_newRasterizer, h2, h1, bind_def, luax_getfiledata, hd, Run.bind, coreCall, ht,
    luax_catchexcept, emit]

/-- C9: with argument 2 absent or nil and argument 1 not a number,
`w_newRasterizer` obtains the file data `d` from argument 1 and calls the
generic core factory `newRasterizer(d)` and no other core constructor; it
releases `d` exactly once whether the core call returns or throws; when the
core call returns `t` the wrapper returns exactly one value, the Rasterizer
`t`; when it throws, the exception is raised on the error channel of the host. -/
theorem w_newRasterizer_single_argument (env : Env) (L : Stack) (d : Nat)
    (h2 : lua_isnoneornil L 2 = true) (h1 : lua_type L 1 ≠ LUA_TNUMBER)
    (hd : env.getfiledata (index2adr L 1) = .ok d) :
    coreCalls (w_newRasterizer env L).events = [.newRasterizer d] ∧
    releases .fileData d (w_newRasterizer env L).events = 1 ∧
    (∀ t, env.core (.newRasterizer d) = .ok t →
      (w_newRasterizer env L).outcome = .ok [.userdata .rasterizer t]) ∧
    (∀ w, env.core (.newRasterizer d) = .error w →
      (w_newRasterizer env L).outcome = .luaError (.exception w)) := by
  cases ht : env.core (.newRasterizer d) with
  | ok t =>
    rw [generic_ok env L d t h2 h1 hd ht]
    simp [coreCalls, releases]
  | error w =>
    rw [generic_throws env L d w h2 h1 hd ht]
    simp [coreCalls, releases]

/-- C9 at the argument list `(FileData 1)` with a core that returns. -/
theorem w_newRasterizer_single_argument_witness :
    lua_isnoneornil [LuaValue.userdata .fileData 1] 2 = true ∧
    lua_type [LuaValue.userdata .fileData 1] 1 ≠ LUA_TNUMBER ∧
    (sampleEnv coreOk).getfiledata (index2adr [LuaValue.userdata .fileData 1] 1) = .ok 1 ∧
    coreCalls (w_newRasterizer (sampleEnv coreOk) [.userdata .fileData 1]).events
      = [.newRasterizer 1] ∧
    releases .fileData 1 (w_newRasterizer (sampleEnv coreOk) [.userdata .fileData 1]).events
      = 1 :=
  ⟨by decide, by decide, rfl,
   (w_newRasterizer_single_argument (sampleEnv coreOk) [.userdata .fileData 1] 1
      (by decide) (by decide) rfl).1,
   (w_newRasterizer_single_argument (sampleEnv coreOk) [.userdata .fileData 1] 1
      (by decide) (by decide) rfl).2.1⟩

/-- C3 (as amended): when argument 1 is a File or FileData userdata from which
the file data `d` is obtained and the point size is absent or nil,
`w_newRasterizer` makes the single core call `newRasterizer(d)`; it passes no
point size and calls no TrueType constructor. -/
theorem w_newRasterizer_file_without_size (env : Env) (L : Stack) (ty : LoveType)
    (id d : Nat) (h1 : index2adr L 1 = some (.userdata ty id))
    (h2 : lua_isnoneornil L 2 = true)
    (hd : env.getfiledata (some (.userdata ty id)) = .ok d) :
    coreCalls (w_newRasterizer env L).events = [.newRasterizer d] ∧
    ∀ c ∈ coreCalls (w_newRasterizer env L).events, c.isTrueType = false := by
  have hn : lua_type L 1 ≠ LUA_TNUMBER := by
    simp [lua_type, h1, ttype, LUA_TUSERDATA, LUA_TNUMBER]
  have hc : coreCalls (w_newRasterizer env L).events = [.newRasterizer d] := by
    cases ht : env.core (.newRasterizer d) with
    | ok t =>
      rw [generic_ok env L d t h2 hn (by rw [h1]; exact hd) ht]
      simp [coreCalls]
    | error w =>
      rw [generic_throws env L d w h2 hn (by rw [h1]; exact hd) ht]
      simp [coreCalls]
  refine ⟨hc, ?_⟩
  intro c hmem
  rw [hc] at hmem
  simp at hmem
  subst hmem
  rfl

/-- C3 (as amended) at the argument list `(FileData 1)`. -/
theorem w_newRasterizer_file_without_size_witness :
    index2adr [LuaValue.userdata .fileData 1] 1 = some (.userdata .fileData 1) ∧
    lua_isnoneornil [LuaValue.userdata .fileData 1] 2 = true ∧
    (sampleEnv coreOk).getfiledata (some (.userdata .fileData 1)) = .ok 1 ∧
    coreCalls (w_newRasterizer (sampleEnv coreOk) [.userdata .fileData 1]).events
      = [.newRasterizer 1] :=
  ⟨rfl, by decide, rfl,
   (w_newRasterizer_file_without_size (sampleEnv coreOk) [.userdata .fileData 1] .fileData 1 1
      rfl (by decide) rfl).1⟩

/-- C3 as stated fails: for the argument list `(FileData 1)` the core call is
`newRasterizer(1)`, not `newTrueTypeRasterizer(1, 12)`. -/
theorem w_newRasterizer_file_without_size_counterexample :
    coreCalls (w_newRasterizer (sampleEnv coreOk) [.userdata .fileData 1]).events
      = [.newRasterizer 1] ∧
    coreCalls (w_newRasterizer (sampleEnv coreOk) [.userdata .fileData 1]).events
      ≠ [.newTrueTypeRasterizer 1 12] := by
  decide

/-! ### The image loops of `w_newBMFontRasterizer` -/

/-- One loop step either retains exactly the image it yields, or raises an error
on the error channel of the host without any effect. -/
theorem takeImage_cases (env : Env) (idx : Int) (v : LuaValue) :
    (∃ id, takeImage env idx v = ⟨[.retain .imageData id], .ok id⟩) ∨
    (∃ e, takeImage env idx v = ⟨[], .luaError e⟩) := by
  unfold takeImage convimagedata
  split
  · cases hc : env.convobj v with
    | error e => right; exact ⟨e, by simp [ofExcept, Run.bind]⟩
    | ok w =>
      cases w with
      | userdata t id =>
        by_cases ht : t = LoveType.imageData
        · left; exact ⟨id, by simp [ofExcept, Run.bind, luax_checktype, ht, Run.pure, emit]⟩
        · right
          exact ⟨_, by simp [ofExcept, Run.bind, luax_checktype, ht, raise]; rfl⟩
      | _ => right; exact ⟨_, by simp [ofExcept, Run.bind, luax_checktype, raise]; rfl⟩
  · cases v with
    | userdata t id =>
      by_cases ht : t = LoveType.imageData
      · left; exact ⟨id, by simp [Run.bind, luax_checktype, ht, Run.pure, emit]⟩
      · right
        exact ⟨_, by simp [Run.bind, luax_checktype, ht, raise, Run.pure]; rfl⟩
    | _ => right; exact ⟨_, by simp [Run.bind, luax_checktype, raise, Run.pure]; rfl⟩

/-- An ImageData userdata is taken as it is. -/
theorem takeImage_imageData (env : Env) (idx : Int) (id : Nat) :
    takeImage env idx (.userdata .imageData id) = ⟨[.retain .imageData id], .ok id⟩ := by
  simp [takeImage, convimagedata, isstring, luax_istype, Run.bind, luax_checktype, Run.pure, emit]

theorem tableLoop_ok (env : Env) : ∀ (vs : List LuaValue) (imgs r : List Nat),
    (tableLoop env vs imgs).outcome = .ok r →
    ∃ new, r = imgs ++ new ∧
      (tableLoop env vs imgs).events = new.map (Event.retain .imageData) := by
  intro vs
  induction vs with
  | nil =>
    intro imgs r h
    simp [tableLoop, Run.pure] at h
    exact ⟨[], by simp [h], by simp [tableLoop, Run.pure]⟩
  | cons v rest ih =>
    intro imgs r h
    rcases takeImage_cases env (-1) v with ⟨id, hid⟩ | ⟨e, he⟩
    · simp only [tableLoop, hid, Run.bind] at h ⊢
      obtain ⟨new, hr, hev⟩ := ih (imgs ++ [id]) r h
      exact ⟨id :: new, by simp [hr], by simp [hev]⟩
    · simp [tableLoop, he, Run.bind] at h

theorem argLoop_ok (env : Env) : ∀ (vs : List LuaValue) (i : Nat) (imgs r : List Nat),
    (argLoop env vs i imgs).outcome = .ok r →
    ∃ new, r = imgs ++ new ∧
      (argLoop env vs i imgs).events = new.map (Event.retain .imageData) := by
  intro vs
  induction vs with
  | nil =>
    intro i imgs r h
    simp [argLoop, Run.pure] at h
    exact ⟨[], by simp [h], by simp [argLoop, Run.pure]⟩
  | cons v rest ih =>
    intro i imgs r h
    rcases takeImage_cases env i v with ⟨id, hid⟩ | ⟨e, he⟩
    · simp only [argLoop, hid, Run.bind] at h ⊢
      obtain ⟨new, hr, hev⟩ := ih (i + 1) (imgs ++ [id]) r h
      exact ⟨id :: new, by simp [hr], by simp [hev]⟩
    · simp [argLoop, he, Run.bind] at h

/-- The loops only retain images. -/
theorem tableLoop_events (env : Env) : ∀ (vs : List LuaValue) (imgs : List Nat),
    ∀ e ∈ (tableLoop env vs imgs).events, ∃ id, e = Event.retain .imageData id := by
  intro vs
  induction vs with
  | nil => intro imgs e he; simp [tableLoop, Run.pure] at he
  | cons v rest ih =>
    intro imgs e he
    rcases takeImage_cases env (-1) v with ⟨id, hid⟩ | ⟨x, hx⟩
    · have hsplit : (tableLoop env (v :: rest) imgs).events =
          Event.retain .imageData id :: (tableLoop env rest (imgs ++ [id])).events := by
        simp only [tableLoop, hid, Run.bind]
        cases (tableLoop env rest (imgs ++ [id])).outcome <;> simp
      rw [hsplit] at he
      rcases List.mem_cons.1 he with h | h
      · exact ⟨id, h⟩
      · exact ih _ e h
    · simp [tableLoop, hx, Run.bind] at he

theorem argLoop_events (env : Env) : ∀ (vs : List LuaValue) (i : Nat) (imgs : List Nat),
    ∀ e ∈ (argLoop env vs i imgs).events, ∃ id, e = Event.retain .imageData id := by
  intro vs
  induction vs with
  | nil => intro i imgs e he; simp [argLoop, Run.pure] at he
  | cons v rest ih =>
    intro i imgs e he
    rcases takeImage_cases env i v with ⟨id, hid⟩ | ⟨x, hx⟩
    · have hsplit : (argLoop env (v :: rest) i imgs).events =
          Event.retain .imageData id :: (argLoop env rest (i + 1) (imgs ++ [id])).events := by
        simp only [argLoop, hid, Run.bind]
        cases (argLoop env rest (i + 1) (imgs ++ [id])).outcome <;> simp
      rw [hsplit] at he
      rcases List.mem_cons.1 he with h | h
      · exact ⟨id, h⟩
      · exact ih _ _ e h
    · simp [argLoop, hx, Run.bind] at he

/-- On a list of ImageData userdata the table loop retains and collects each
image, in order. -/
theorem tableLoop_imageData (env : Env) : ∀ (ids imgs : List Nat),
    tableLoop env (ids.map (LuaValue.userdata .imageData)) imgs =
      ⟨ids.map (Event.retain .imageData), .ok (imgs ++ ids)⟩ := by
  intro ids
  induction ids with
  | nil => intro imgs; simp [tableLoop, Run.pure]
  | cons a rest ih =>
    intro imgs
    simp [tableLoop, takeImage_imageData, Run.bind, ih]

theorem argLoop_imageData (env : Env) : ∀ (ids : List Nat) (i : Nat) (imgs : List Nat),
    argLoop env (ids.map (LuaValue.userdata .imageData)) i imgs =
      ⟨ids.map (Event.retain .imageData), .ok (imgs ++ ids)⟩ := by
  intro ids
  induction ids with
  | nil => intro i imgs; simp [argLoop, Run.pure]
  | cons a rest ih =>
    intro i imgs
    simp [argLoop, takeImage_imageData, Run.bind, ih]

theorem buildImages_ok (env : Env) (L : Stack) (images : List Nat)
    (h : (buildImages env L).outcome = .ok images) :
    buildImages env L = ⟨images.map (Event.retain .imageData), .ok images⟩ := by
  unfold buildImages at h ⊢
  split
  · rename_i ht
    simp only [ht, if_true] at h
    obtain ⟨new, hr, hev⟩ := tableLoop_ok env _ _ _ h
    simp at hr
    subst hr
    cases hrun : tableLoop env (tableAt L 2) [] with
    | mk evs out =>
      rw [hrun] at h hev
      simp at h hev
      rw [h, hev]
  · rename_i ht
    simp only [ht] at h
    obtain ⟨new, hr, hev⟩ := argLoop_ok env _ _ _ _ h
    simp at hr
    subst hr
    cases hrun : argLoop env (L.drop 1) 2 [] with
    | mk evs out =>
      rw [hrun] at h hev
      simp at h hev
      rw [h, hev]

theorem buildImages_events (env : Env) (L : Stack) :
    ∀ e ∈ (buildImages env L).events, ∃ id, e = Event.retain .imageData id := by
  unfold buildImages
  split
  · exact tableLoop_events env _ _
  · exact argLoop_events env _ _ _

theorem coreCalls_append (xs ys : List Event) :
    coreCalls (xs ++ ys) = coreCalls xs ++ coreCalls ys := by
  induction xs with
  | nil => rfl
  | cons e rest ih => cases e <;> simp [coreCalls, ih]

theorem coreCalls_retains (xs : List Event)
    (h : ∀ e ∈ xs, ∃ id, e = Event.retain .imageData id) : coreCalls xs = [] := by
  induction xs with
  | nil => rfl
  | cons e rest ih =>
    obtain ⟨id, hid⟩ := h e (List.mem_cons_self _ _)
    subst hid
    simp only [coreCalls]
    exact ih (fun e he => h e (List.mem_cons_of_mem _ he))

theorem coreCalls_map_retain (t : LoveType) (ids : List Nat) :
    coreCalls (ids.map (Event.retain t)) = [] := by
  induction ids with
  | nil => rfl
  | cons a rest ih => simpa [coreCalls] using ih

theorem coreCalls_map_release (t : LoveType) (ids : List Nat) :
    coreCalls (ids.map (Event.release t)) = [] := by
  induction ids with
  | nil => rfl
  | cons a rest ih => simpa [coreCalls] using ih

/-! ### `w_newBMFontRasterizer` -/

/-- The whole run of `w_newBMFontRasterizer` once the descriptor and the image
list have been obtained and the core constructor throws. -/
theorem bmfont_throws (env : Env) (L : Stack) (d : Nat) (images : List Nat) (w : String)
    (hd : env.getfiledata (index2adr L 1) = .ok d)
    (hb : (buildImages env L).outcome = .ok images)
    (hc : env.core (.newBMFontRasterizer d images) = .error w) :
    w_newBMFontRasterizer env L =
      ⟨.retain .fileData d :: (images.map (Event.retain .imageData) ++
          .call (.newBMFontRasterizer d images) :: .release .fileData d ::
            images.map (Event.release .imageData)),
       .luaError (.exception w)⟩ := by
  simp [w_newBMFontRasterizer, bind_def, luax_getfiledata, hd, Run.bind,
    buildImages_ok env L images hb, coreCall, hc, luax_catchexcept, releaseAll]

/-- The whole run of `w_newBMFontRasterizer` once the descriptor and the image
list have been obtained and the core constructor returns. -/
theorem bmfont_ok (env : Env) (L : Stack) (d t : Nat) (images : List Nat)
    (hd : env.getfiledata (index2adr L 1) = .ok d)
    (hb : (buildImages env L).outcome = .ok images)
    (hc : env.core (.newBMFontRasterizer d images) = .ok t) :
    w_newBMFontRasterizer env L =
      ⟨.retain .fileData d :: (images.map (Event.retain .imageData) ++
          .call (.newBMFontRasterizer d images) :: .release .fileData d ::
            (images.map (Event.release .imageData) ++
              [.pushtype .rasterizer t, .release .rasterizer t])),
       .ok [.userdata .rasterizer t]⟩ := by
  simp [w_newBMFontRasterizer, bind_def, pure_def, luax_getfiledata, hd, Run.bind,
    buildImages_ok env L images hb, coreCall, hc, luax_catchexcept, releaseAll,
    luax_pushtype, emit, Run.pure]

/-- The core calls of `w_newBMFontRasterizer` once the descriptor and the image
list have been obtained. -/
theorem bmfont_coreCalls (env : Env) (L : Stack) (d : Nat) (images : List Nat)
    (hd : env.getfiledata (index2adr L 1) = .ok d)
    (hb : (buildImages env L).outcome = .ok images) :
    coreCalls (w_newBMFontRasterizer env L).events = [.newBMFontRasterizer d images] := by
  cases hc : env.core (.newBMFontRasterizer d images) with
  | ok t =>
    rw [bmfont_ok env L d t images hd hb hc]
    simp [coreCalls, coreCalls_append, coreCalls_map_retain, coreCalls_map_release]
  | error w =>
    rw [bmfont_throws env L d images w hd hb hc]
    simp [coreCalls, coreCalls_append, coreCalls_map_retain, coreCalls_map_release]

/-- Whatever the arguments, `w_newBMFontRasterizer` calls no core constructor
other than `newBMFontRasterizer`. -/
theorem bmfont_only_bmfont (env : Env) (L : Stack) :
    ∀ c ∈ coreCalls (w_newBMFontRasterizer env L).events,
      ∃ d images, c = CoreCall.newBMFontRasterizer d images := by
  intro c hc
  cases hd : env.getfiledata (index2adr L 1) with
  | error e =>
    simp [w_newBMFontRasterizer, bind_def, luax_getfiledata, hd, Run.bind, coreCalls] at hc
  | ok d =>
    cases hb : (buildImages env L).outcome with
    | ok images =>
      rw [bmfont_coreCalls env L d images hd hb] at hc
      simp at hc
      exact ⟨d, images, hc⟩
    | luaError e =>
      have hev := coreCalls_retains _ (buildImages_events env L)
      simp [w_newBMFontRasterizer, bind_def, luax_getfiledata, hd, Run.bind, hb, coreCalls,
        hev] at hc
    | uncaught w =>
      have hev := coreCalls_retains _ (buildImages_events env L)
      simp [w_newBMFontRasterizer, bind_def, luax_getfiledata, hd, Run.bind, hb, coreCalls,
        hev] at hc

theorem buildImages_table (env : Env) (a1 : LuaValue) (ids : List Nat) (extra : List LuaValue) :
    buildImages env (a1 :: .table (ids.map (LuaValue.userdata .imageData)) :: extra) =
      ⟨ids.map (Event.retain .imageData), .ok ids⟩ := by
  have h := tableLoop_imageData env ids []
  simpa [buildImages, lua_istable, lua_type, index2adr, ttype, tableAt] using h

theorem buildImages_variadic (env : Env) (a1 : LuaValue) (ids : List Nat) :
    buildImages env (a1 :: ids.map (LuaValue.userdata .imageData)) =
      ⟨ids.map (Event.retain .imageData), .ok ids⟩ := by
  have h := argLoop_imageData env ids 2 []
  cases ids with
  | nil => simp [buildImages, lua_istable, lua_type, index2adr, ttype, LUA_TNONE, LUA_TTABLE,
      argLoop, Run.pure]
  | cons a rest =>
    simpa [buildImages, lua_istable, lua_type, index2adr, ttype, LUA_TUSERDATA, LUA_TTABLE]
      using h

/-- C5: for a descriptor from which the file data `d` is obtained and ImageData
objects `ids = [i_1, ..., i_n]`, `w_newBMFontRasterizer` makes the single core
call `newBMFontRasterizer(d, ids)` with the images in the order supplied, both
when they are given as one table in argument 2 and when they are given as the
arguments 2..n+1; the length of the list passed is the table length,
respectively the argument count minus one. -/
theorem w_newBMFontRasterizer_image_list (env : Env) (a1 : LuaValue) (d : Nat)
    (ids : List Nat) (extra : List LuaValue) (hd : env.getfiledata (some a1) = .ok d) :
    coreCalls (w_newBMFontRasterizer env
        (a1 :: .table (ids.map (LuaValue.userdata .imageData)) :: extra)).events
      = [.newBMFontRasterizer d ids] ∧
    coreCalls (w_newBMFontRasterizer env
        (a1 :: ids.map (LuaValue.userdata .imageData))).events
      = [.newBMFontRasterizer d ids] ∧
    ids.length
      = (tableAt (a1 :: .table (ids.map (LuaValue.userdata .imageData)) :: extra) 2).length ∧
    ids.length = lua_gettop (a1 :: ids.map (LuaValue.userdata .imageData)) - 1 := by
  refine ⟨?_, ?_, ?_, ?_⟩
  · apply bmfont_coreCalls
    · simpa [index2adr] using hd
    · rw [buildImages_table]
  · apply bmfont_coreCalls
    · simpa [index2adr] using hd
    · rw [buildImages_variadic]
  · simp [tableAt, index2adr]
  · simp [lua_gettop]

/-- C5 at a descriptor `FileData 1` and the images `7, 8, 7`. -/
theorem w_newBMFontRasterizer_image_list_witness :
    (sampleEnv coreOk).getfiledata (some (.userdata .fileData 1)) = .ok 1 ∧
    coreCalls (w_newBMFontRasterizer (sampleEnv coreOk)
        (.userdata .fileData 1 ::
          .table ([7, 8, 7].map (LuaValue.userdata .imageData)) :: [])).events
      = [.newBMFontRasterizer 1 [7, 8, 7]] ∧
    coreCalls (w_newBMFontRasterizer (sampleEnv coreOk)
        (.userdata .fileData 1 :: [7, 8, 7].map (LuaValue.userdata .imageData))).events
      = [.newBMFontRasterizer 1 [7, 8, 7]] :=
  ⟨rfl,
   (w_newBMFontRasterizer_image_list (sampleEnv coreOk) (.userdata .fileData 1) 1 [7, 8, 7] []
      rfl).1,
   (w_newBMFontRasterizer_image_list (sampleEnv coreOk) (.userdata .fileData 1) 1 [7, 8, 7] []
      rfl).2.1⟩

theorem count_retain_map_retain (t : LoveType) (i : Nat) (ids : List Nat) :
    (ids.map (Event.retain t)).count (Event.retain t i) = ids.count i := by
  induction ids with
  | nil => rfl
  | cons a rest ih => simp [List.count_cons, ih]

theorem count_release_map_release (t : LoveType) (i : Nat) (ids : List Nat) :
    (ids.map (Event.release t)).count (Event.release t i) = ids.count i := by
  induction ids with
  | nil => rfl
  | cons a rest ih => simp [List.count_cons, ih]

theorem count_retain_map_release (t u : LoveType) (i : Nat) (ids : List Nat) :
    (ids.map (Event.release u)).count (Event.retain t i) = 0 := by
  induction ids with
  | nil => rfl
  | cons a rest ih => simp [List.count_cons, ih]

theorem count_release_map_retain (t u : LoveType) (i : Nat) (ids : List Nat) :
    (ids.map (Event.retain u)).count (Event.release t i) = 0 := by
  induction ids with
  | nil => rfl
  | cons a rest ih => simp [List.count_cons, ih]

theorem count_release_fileData_map (i : Nat) (ids : List Nat) :
    (ids.map (Event.release .imageData)).count (Event.release .fileData i) = 0 := by
  induction ids with
  | nil => rfl
  | cons a rest ih => simp [List.count_cons, ih]

theorem count_retain_fileData_map (i : Nat) (ids : List Nat) :
    (ids.map (Event.retain .imageData)).count (Event.retain .fileData i) = 0 := by
  induction ids with
  | nil => rfl
  | cons a rest ih => simp [List.count_cons, ih]

/-- C6: when the descriptor `d` and the image list `images` have been obtained
and the core constructor `newBMFontRasterizer(d, images)` throws, the exception
is raised on the error channel of the host, and by then the binding has released
every image exactly as often as it retained it (as often as the image occurs in
the list) and has released `d` once: the net change of the reference count of every
image and of the descriptor is zero. -/
theorem w_newBMFontRasterizer_core_failure (env : Env) (L : Stack) (d : Nat)
    (images : List Nat) (w : String)
    (hd : env.getfiledata (index2adr L 1) = .ok d)
    (hb : (buildImages env L).outcome = .ok images)
    (hc : env.core (.newBMFontRasterizer d images) = .error w) :
    (w_newBMFontRasterizer env L).outcome = .luaError (.exception w) ∧
    (∀ i, retains .imageData i (w_newBMFontRasterizer env L).events = images.count i ∧
          releases .imageData i (w_newBMFontRasterizer env L).events = images.count i ∧
          refDelta .imageData i (w_newBMFontRasterizer env L).events = 0) ∧
    releases .fileData d (w_newBMFontRasterizer env L).events = 1 ∧
    refDelta .fileData d (w_newBMFontRasterizer env L).events = 0 := by
  rw [bmfont_throws env L d images w hd hb hc]
  refine ⟨rfl, ?_, ?_, ?_⟩
  · intro i
    have h1 : retains .imageData i
        (.retain .fileData d :: (images.map (Event.retain .imageData) ++
          .call (.newBMFontRasterizer d images) :: .release .fileData d ::
            images.map (Event.release .imageData))) = images.count i := by
      simp [retains, List.count_cons, count_retain_map_retain, count_retain_map_release]
    have h2 : releases .imageData i
        (.retain .fileData d :: (images.map (Event.retain .imageData) ++
          .call (.newBMFontRasterizer d images) :: .release .fileData d ::
            images.map (Event.release .imageData))) = images.count i := by
      simp [releases, List.count_cons, count_release_map_release, count_release_map_retain]
    refine ⟨h1, h2, ?_⟩
    simp only [refDelta] at *
    rw [h1, h2]
    simp
  · simp [releases, List.count_cons, count_release_fileData_map, count_release_map_retain]
  · simp [refDelta, retains, releases, List.count_cons, count_release_fileData_map,
      count_release_map_retain, count_retain_fileData_map, count_retain_map_release]

/-- C6 at a descriptor `FileData 1`, the image table `(7, 8, 7)` and a core that
throws. -/
theorem w_newBMFontRasterizer_core_failure_witness :
    (sampleEnv coreThrows).getfiledata (index2adr
      [.userdata .fileData 1, .table [.userdata .imageData 7, .userdata .imageData 8,
        .userdata .imageData 7]] 1) = .ok 1 ∧
    (buildImages (sampleEnv coreThrows)
      [.userdata .fileData 1, .table [.userdata .imageData 7, .userdata .imageData 8,
        .userdata .imageData 7]]).outcome = .ok [7, 8, 7] ∧
    (sampleEnv coreThrows).core (.newBMFontRasterizer 1 [7, 8, 7]) = .error "core failure" ∧
    (w_newBMFontRasterizer (sampleEnv coreThrows)
      [.userdata .fileData 1, .table [.userdata .imageData 7, .userdata .imageData 8,
        .userdata .imageData 7]]).outcome = .luaError (.exception "core failure") ∧
    refDelta .imageData 7 (w_newBMFontRasterizer (sampleEnv coreThrows)
      [.userdata .fileData 1, .table [.userdata .imageData 7, .userdata .imageData 8,
        .userdata .imageData 7]]).events = 0 :=
  ⟨rfl, rfl, rfl,
   (w_newBMFontRasterizer_core_failure (sampleEnv coreThrows)
      [.userdata .fileData 1, .table [.userdata .imageData 7, .userdata .imageData 8,
        .userdata .imageData 7]] 1 [7, 8, 7] "core failure" rfl rfl rfl).1,
   ((w_newBMFontRasterizer_core_failure (sampleEnv coreThrows)
      [.userdata .fileData 1, .table [.userdata .imageData 7, .userdata .imageData 8,
        .userdata .imageData 7]] 1 [7, 8, 7] "core failure" rfl rfl rfl).2.1 7).2.2⟩

/-- C7 on the call `newBMFontRasterizer(FileData 1, (ImageData 7, true))`:
building the list fails at element 2 with a type error; the only events are the
two retains, so image 7 and the descriptor are each left one reference above
their value before the call. -/
theorem w_newBMFontRasterizer_list_failure_leaks :
    w_newBMFontRasterizer (sampleEnv coreOk)
      [.userdata .fileData 1, .table [.userdata .imageData 7, .boolean true]]
      = ⟨[.retain .fileData 1, .retain .imageData 7],
         .luaError (.typerror (-1) "ImageData")⟩ ∧
    refDelta .imageData 7 (w_newBMFontRasterizer (sampleEnv coreOk)
      [.userdata .fileData 1, .table [.userdata .imageData 7, .boolean true]]).events = 1 ∧
    refDelta .fileData 1 (w_newBMFontRasterizer (sampleEnv coreOk)
      [.userdata .fileData 1, .table [.userdata .imageData 7, .boolean true]]).events = 1 ∧
    w_newBMFontRasterizer (sampleEnv coreOk)
      [.userdata .fileData 1, .userdata .imageData 7, .boolean true]
      = ⟨[.retain .fileData 1, .retain .imageData 7],
         .luaError (.typerror 3 "ImageData")⟩ := by
  refine ⟨rfl, by decide, by decide, rfl⟩

/-! ### Dispatch in `w_newRasterizer` -/

/-- C2 (as amended): when argument 1 is an ImageData and argument 2 a string,
`w_newRasterizer` behaves exactly as `w_newBMFontRasterizer` on the same
arguments; the only core constructor it can call is `newBMFontRasterizer`, and
it never calls `newImageRasterizer(image, characters)`. That call is made by
`w_newImageRasterizer` on the same arguments. -/
theorem w_newRasterizer_image_and_string (env : Env) (L : Stack) (id : Nat) (s : String)
    (h1 : index2adr L 1 = some (.userdata .imageData id))
    (h2 : index2adr L 2 = some (.string s)) :
    w_newRasterizer env L = w_newBMFontRasterizer env L ∧
    (∀ c ∈ coreCalls (w_newRasterizer env L).events,
      ∃ d images, c = CoreCall.newBMFontRasterizer d images) ∧
    CoreCall.newImageRasterizer id s ∉ coreCalls (w_newRasterizer env L).events ∧
    coreCalls (w_newImageRasterizer env L).events = [.newImageRasterizer id s] := by
  have heq : w_newRasterizer env L = w_newBMFontRasterizer env L := by
    simp [w_newRasterizer, lua_isnoneornil, lua_type, h2, ttype, LUA_TSTRING, LUA_TNUMBER]
  refine ⟨heq, ?_, ?_, ?_⟩
  · rw [heq]
    exact bmfont_only_bmfont env L
  · intro hmem
    rw [heq] at hmem
    obtain ⟨d, images, hc⟩ := bmfont_only_bmfont env L _ hmem
    cases hc
  · cases hc : env.core (.newImageRasterizer id s) <;>
      simp [w_newImageRasterizer, h1, h2, bind_def, pure_def, Run.bind, Run.pure, convimagedata,
        isstring, luax_istype, luax_checktype, luax_checkstring, luax_catchexcept1,
        luax_catchexcept, coreCall, hc, luax_pushtype, emit, coreCalls, Functor.map]

/-- C2 (as amended) at the argument list `(ImageData 1, "ab")`. -/
theorem w_newRasterizer_image_and_string_witness :
    index2adr [LuaValue.userdata .imageData 1, .string "ab"] 1
      = some (.userdata .imageData 1) ∧
    index2adr [LuaValue.userdata .imageData 1, .string "ab"] 2 = some (.string "ab") ∧
    w_newRasterizer (sampleEnv coreOk) [.userdata .imageData 1, .string "ab"]
      = w_newBMFontRasterizer (sampleEnv coreOk) [.userdata .imageData 1, .string "ab"] ∧
    CoreCall.newImageRasterizer 1 "ab" ∉
      coreCalls (w_newRasterizer (sampleEnv coreOk)
        [.userdata .imageData 1, .string "ab"]).events :=
  ⟨rfl, rfl,
   (w_newRasterizer_image_and_string (sampleEnv coreOk)
      [.userdata .imageData 1, .string "ab"] 1 "ab" rfl rfl).1,
   (w_newRasterizer_image_and_string (sampleEnv coreOk)
      [.userdata .imageData 1, .string "ab"] 1 "ab" rfl rfl).2.2.1⟩

/-- C2 as stated fails: on `(ImageData 1, "ab")` the dispatcher makes no core
call at all (argument 1 is rejected as a descriptor file), whereas
`w_newImageRasterizer` on the same arguments calls
`newImageRasterizer(1, "ab")`. -/
theorem w_newRasterizer_image_and_string_counterexample :
    w_newRasterizer (sampleEnv coreOk) [.userdata .imageData 1, .string "ab"]
      = ⟨[], .luaError (.argerror 1 "filename, File, or FileData expected")⟩ ∧
    coreCalls (w_newRasterizer (sampleEnv coreOk)
        [.userdata .imageData 1, .string "ab"]).events
      ≠ [.newImageRasterizer 1 "ab"] ∧
    coreCalls (w_newImageRasterizer (sampleEnv coreOk)
        [.userdata .imageData 1, .string "ab"]).events
      = [.newImageRasterizer 1 "ab"] := by
  refine ⟨rfl, by decide, by decide⟩

/-! ### Number conversions -/

theorem trunc_ofInt (n : Int) : (LuaNumber.ofInt n).trunc = some n := by
  simp [LuaNumber.ofInt, LuaNumber.trunc]

/-- Within the range of `int` the conversion of `luaL_checkint` yields the
truncated value of the number. -/
theorem toInt32_of_trunc (x : LuaNumber) (t : Int) (h : x.trunc = some t)
    (hlo : -2147483648 ≤ t) (hhi : t < 2147483648) : toInt32 x = t := by
  have h64 : -9223372036854775808 ≤ t ∧ t < 9223372036854775808 := by omega
  simp only [toInt32, number2integer, h, h64, and_self, if_true]
  omega

/-- Within the range of `uint32` the cast yields the truncated value of the
number. -/
theorem toUInt32_of_trunc (x : LuaNumber) (t : Int) (h : x.trunc = some t)
    (hlo : 0 ≤ t) (hhi : t < 4294967296) : toUInt32 x = t.toNat := by
  have h64 : -9223372036854775808 ≤ t ∧ t < 9223372036854775808 := by omega
  simp only [toUInt32, number2integer, h, h64, and_self, if_true]
  congr 1
  omega

theorem toUInt32_lt (x : LuaNumber) : toUInt32 x < 4294967296 := by
  unfold toUInt32
  omega

theorem toInt32_range (x : LuaNumber) : -2147483648 ≤ toInt32 x ∧ toInt32 x < 2147483648 := by
  unfold toInt32
  omega

theorem lua_type_string_iff (L : Stack) (idx : Nat) :
    lua_type L idx = LUA_TSTRING ↔ ∃ s, index2adr L idx = some (.string s) := by
  unfold lua_type
  cases h : index2adr L idx with
  | none => simp [LUA_TNONE, LUA_TSTRING]
  | some v => cases v <;> simp [ttype, LUA_TNIL, LUA_TBOOLEAN, LUA_TTABLE,
        LUA_TUSERDATA, LUA_TFUNCTION, LUA_TSTRING, LUA_TNUMBER]

theorem lua_type_number_iff (L : Stack) (idx : Nat) :
    lua_type L idx = LUA_TNUMBER ↔ ∃ x, index2adr L idx = some (.number x) := by
  unfold lua_type
  cases h : index2adr L idx with
  | none => simp [LUA_TNONE, LUA_TNUMBER]
  | some v => cases v <;> simp [ttype, LUA_TNIL, LUA_TBOOLEAN, LUA_TTABLE,
        LUA_TUSERDATA, LUA_TFUNCTION, LUA_TSTRING, LUA_TNUMBER]

/-! ### `w_newGlyphData` -/

/-- C8 on `newGlyphData(Rasterizer 1, 65)` with a core that throws: the
exception of the codepoint overload leaves the wrapper uncaught, it is not
raised on the error channel of the host; on `newGlyphData(Rasterizer 1, "A")` the
exception of the character overload is caught and raised on that channel. -/
theorem w_newGlyphData_codepoint_exception_escapes :
    w_newGlyphData (sampleEnv coreThrows) [.userdata .rasterizer 1, .number (.ofInt 65)]
      = ⟨[.call (.newGlyphDataCode 1 65)], .uncaught "core failure"⟩ ∧
    w_newGlyphData (sampleEnv coreThrows) [.userdata .rasterizer 1, .string "A"]
      = ⟨[.call (.newGlyphDataText 1 "A")], .luaError (.exception "core failure")⟩ := by
  refine ⟨rfl, rfl⟩

/-- The character overload: the run of `w_newGlyphData` on a string. -/
theorem glyph_text_run (env : Env) (L : Stack) (r : Nat) (s : String)
    (hr : index2adr L 1 = some (.userdata .rasterizer r))
    (hv : index2adr L 2 = some (.string s)) :
    w_newGlyphData env L =
      match env.core (.newGlyphDataText r s) with
      | .ok t => ⟨[.call (.newGlyphDataText r s), .pushtype .glyphData t,
          .release .glyphData t], .ok [.userdata .glyphData t]⟩
      | .error w => ⟨[.call (.newGlyphDataText r s)], .luaError (.exception w)⟩ := by
  cases hc : env.core (.newGlyphDataText r s) <;>
    simp [w_newGlyphData, hr, hv, lua_type, ttype, bind_def, pure_def, Run.bind, Run.pure,
      luax_checktype, luax_checkstring, luax_catchexcept1, luax_catchexcept, coreCall, hc,
      luax_pushtype, emit]

/-- The codepoint overload: the run of `w_newGlyphData` on a number. -/
theorem glyph_code_run (env : Env) (L : Stack) (r : Nat) (x : LuaNumber)
    (hr : index2adr L 1 = some (.userdata .rasterizer r))
    (hv : index2adr L 2 = some (.number x)) :
    w_newGlyphData env L =
      match env.core (.newGlyphDataCode r (toUInt32 x)) with
      | .ok t => ⟨[.call (.newGlyphDataCode r (toUInt32 x)), .pushtype .glyphData t,
          .release .glyphData t], .ok [.userdata .glyphData t]⟩
      | .error w => ⟨[.call (.newGlyphDataCode r (toUInt32 x))], .uncaught w⟩ := by
  cases hc : env.core (.newGlyphDataCode r (toUInt32 x)) <;>
    simp [w_newGlyphData, hr, hv, lua_type, ttype, LUA_TNUMBER, LUA_TSTRING, bind_def, pure_def,
      Run.bind, Run.pure, luax_checktype, luaL_checknumber, coreCall, hc,
      luax_pushtype, emit]

theorem glyph_text_calls (env : Env) (L : Stack) (r : Nat) (s : String)
    (hr : index2adr L 1 = some (.userdata .rasterizer r))
    (hv : index2adr L 2 = some (.string s)) :
    coreCalls (w_newGlyphData env L).events = [.newGlyphDataText r s] ∧
    ∀ vals, (w_newGlyphData env L).outcome = .ok vals →
      ∃ t, vals = [LuaValue.userdata .glyphData t] := by
  rw [glyph_text_run env L r s hr hv]
  cases env.core (.newGlyphDataText r s) <;> simp [coreCalls]

theorem glyph_code_calls (env : Env) (L : Stack) (r : Nat) (x : LuaNumber)
    (hr : index2adr L 1 = some (.userdata .rasterizer r))
    (hv : index2adr L 2 = some (.number x)) :
    coreCalls (w_newGlyphData env L).events = [.newGlyphDataCode r (toUInt32 x)] ∧
    ∀ vals, (w_newGlyphData env L).outcome = .ok vals →
      ∃ t, vals = [LuaValue.userdata .glyphData t] := by
  rw [glyph_code_run env L r x hr hv]
  cases env.core (.newGlyphDataCode r (toUInt32 x)) <;> simp [coreCalls]

/-- A second argument that is neither a string nor a number is rejected before
any core call. -/
theorem glyph_other_run (env : Env) (L : Stack) (r : Nat)
    (hr : index2adr L 1 = some (.userdata .rasterizer r))
    (hs : ∀ s, index2adr L 2 ≠ some (.string s))
    (hn : ∀ x, index2adr L 2 ≠ some (.number x)) :
    w_newGlyphData env L = ⟨[], .luaError (.typerror 2 "number")⟩ := by
  cases hv : index2adr L 2 with
  | none =>
    simp [w_newGlyphData, hr, hv, lua_type, LUA_TNONE, LUA_TSTRING, bind_def,
      Run.bind, Run.pure, luax_checktype, luaL_checknumber, raise]
  | some v =>
    cases v with
    | string s => exact absurd hv (hs s)
    | number x => exact absurd hv (hn x)
    | _ =>
      simp [w_newGlyphData, hr, hv, lua_type, ttype, LUA_TNIL, LUA_TBOOLEAN, LUA_TTABLE,
        LUA_TUSERDATA, LUA_TFUNCTION, LUA_TSTRING, bind_def,
        Run.bind, Run.pure, luax_checktype, luaL_checknumber, raise]

/-- C10 (as amended): for a Rasterizer `r` in argument 1 and any second
argument `v`, `w_newGlyphData` calls the character overload
`newGlyphData(r, text)` exactly when the host type of `v` is string, with the
string itself as text (so `"65"` is text). When `v` is a number it makes the
single call `newGlyphData(r, g)` of the codepoint overload with `g` the uint32
cast of the number: `g` is below `2^32`, and it is the value of the number
without its fraction whenever that lies in `0 .. 2^32 - 1`. When `v` is neither
a string nor a number the wrapper raises a type error and calls nothing. A
result returned is exactly one GlyphData, the object the core call returned. -/
theorem w_newGlyphData_overload (env : Env) (L : Stack) (r : Nat)
    (hr : index2adr L 1 = some (.userdata .rasterizer r)) :
    ((∃ s, CoreCall.newGlyphDataText r s ∈ coreCalls (w_newGlyphData env L).events) ↔
      lua_type L 2 = LUA_TSTRING) ∧
    (∀ s, index2adr L 2 = some (.string s) →
      coreCalls (w_newGlyphData env L).events = [.newGlyphDataText r s] ∧
      (∀ t, env.core (.newGlyphDataText r s) = .ok t →
        (w_newGlyphData env L).outcome = .ok [.userdata .glyphData t])) ∧
    (∀ x, index2adr L 2 = some (.number x) →
      coreCalls (w_newGlyphData env L).events = [.newGlyphDataCode r (toUInt32 x)] ∧
      toUInt32 x < 4294967296 ∧
      (∀ t, x.trunc = some t → 0 ≤ t → t < 4294967296 →
        coreCalls (w_newGlyphData env L).events = [.newGlyphDataCode r t.toNat]) ∧
      (∀ t, env.core (.newGlyphDataCode r (toUInt32 x)) = .ok t →
        (w_newGlyphData env L).outcome = .ok [.userdata .glyphData t])) ∧
    ((∀ s, index2adr L 2 ≠ some (.string s)) → (∀ x, index2adr L 2 ≠ some (.number x)) →
      w_newGlyphData env L = ⟨[], .luaError (.typerror 2 "number")⟩) ∧
    (∀ vals, (w_newGlyphData env L).outcome = .ok vals →
      ∃ t, vals = [LuaValue.userdata .glyphData t]) := by
  refine ⟨?_, ?_, ?_, glyph_other_run env L r hr, ?_⟩
  · constructor
    · rintro ⟨s, hmem⟩
      by_contra hne
      have hs : ∀ s, index2adr L 2 ≠ some (.string s) :=
        fun s h => hne ((lua_type_string_iff L 2).2 ⟨s, h⟩)
      by_cases hn : ∃ x, index2adr L 2 = some (.number x)
      · obtain ⟨x, hx⟩ := hn
        rw [(glyph_code_calls env L r x hr hx).1] at hmem
        simp at hmem
      · rw [glyph_other_run env L r hr hs (fun x h => hn ⟨x, h⟩)] at hmem
        simp [coreCalls] at hmem
    · intro ht
      obtain ⟨s, hs⟩ := (lua_type_string_iff L 2).1 ht
      exact ⟨s, by simp [(glyph_text_calls env L r s hr hs).1]⟩
  · intro s hs
    refine ⟨(glyph_text_calls env L r s hr hs).1, ?_⟩
    intro t ht
    rw [glyph_text_run env L r s hr hs, ht]
  · intro x hx
    have hcalls := (glyph_code_calls env L r x hr hx).1
    refine ⟨hcalls, toUInt32_lt x, ?_, ?_⟩
    · intro t htr hlo hhi
      rw [hcalls, toUInt32_of_trunc x t htr hlo hhi]
    · intro t ht
      rw [glyph_code_run env L r x hr hx, ht]
  · intro vals hv
    by_cases hs : ∃ s, index2adr L 2 = some (.string s)
    · obtain ⟨s, hs⟩ := hs
      exact (glyph_text_calls env L r s hr hs).2 vals hv
    · by_cases hn : ∃ x, index2adr L 2 = some (.number x)
      · obtain ⟨x, hx⟩ := hn
        exact (glyph_code_calls env L r x hr hx).2 vals hv
      · rw [glyph_other_run env L r hr (fun s h => hs ⟨s, h⟩) (fun x h => hn ⟨x, h⟩)] at hv
        cases hv

/-- C10 (as amended) at `newGlyphData(Rasterizer 1, "65")`,
`newGlyphData(Rasterizer 1, 65)`, `newGlyphData(Rasterizer 1, 65.5)` and
`newGlyphData(Rasterizer 1, 2^63 + 2048)`. -/
theorem w_newGlyphData_overload_witness :
    index2adr [LuaValue.userdata .rasterizer 1, .string "65"] 1
      = some (.userdata .rasterizer 1) ∧
    coreCalls (w_newGlyphData (sampleEnv coreOk)
        [.userdata .rasterizer 1, .string "65"]).events = [.newGlyphDataText 1 "65"] ∧
    coreCalls (w_newGlyphData (sampleEnv coreOk)
        [.userdata .rasterizer 1, .number (.ofInt 65)]).events = [.newGlyphDataCode 1 65] ∧
    coreCalls (w_newGlyphData (sampleEnv coreOk)
        [.userdata .rasterizer 1, .number (.finite 131 (-1))]).events
      = [.newGlyphDataCode 1 65] ∧
    (w_newGlyphData (sampleEnv coreOk)
        [.userdata .rasterizer 1, .number (.ofInt 65)]).outcome
      = .ok [.userdata .glyphData 100] ∧
    coreCalls (w_newGlyphData (sampleEnv coreOk)
        [.userdata .rasterizer 1, .number (.finite 4503599627370497 11)]).events
      = [.newGlyphDataCode 1 0] :=
  ⟨rfl,
   ((w_newGlyphData_overload (sampleEnv coreOk) [.userdata .rasterizer 1, .string "65"] 1
      rfl).2.1 "65" rfl).1,
   ((w_newGlyphData_overload (sampleEnv coreOk)
      [.userdata .rasterizer 1, .number (.ofInt 65)] 1 rfl).2.2.1 (.ofInt 65) rfl).2.2.1
      65 (by decide) (by decide) (by decide),
   ((w_newGlyphData_overload (sampleEnv coreOk)
      [.userdata .rasterizer 1, .number (.finite 131 (-1))] 1 rfl).2.2.1
      (.finite 131 (-1)) rfl).2.2.1 65 (by decide) (by decide) (by decide),
   ((w_newGlyphData_overload (sampleEnv coreOk)
      [.userdata .rasterizer 1, .number (.ofInt 65)] 1 rfl).2.2.1 (.ofInt 65) rfl).2.2.2
      100 rfl,
   ((w_newGlyphData_overload (sampleEnv coreOk)
      [.userdata .rasterizer 1, .number (.finite 4503599627370497 11)] 1 rfl).2.2.1
      (.finite 4503599627370497 11) rfl).1⟩

/-- C10 as stated fails: on `newGlyphData(Rasterizer 1, true)` and on
`newGlyphData(Rasterizer 1)` the host type of argument 2 is not string, yet the
codepoint overload is not called: the wrapper raises a type error and makes no
core call. -/
theorem w_newGlyphData_overload_counterexample :
    lua_type [LuaValue.userdata .rasterizer 1, .boolean true] 2 ≠ LUA_TSTRING ∧
    w_newGlyphData (sampleEnv coreOk) [.userdata .rasterizer 1, .boolean true]
      = ⟨[], .luaError (.typerror 2 "number")⟩ ∧
    coreCalls (w_newGlyphData (sampleEnv coreOk)
        [.userdata .rasterizer 1, .boolean true]).events = [] ∧
    lua_type [LuaValue.userdata .rasterizer 1] 2 ≠ LUA_TSTRING ∧
    w_newGlyphData (sampleEnv coreOk) [.userdata .rasterizer 1]
      = ⟨[], .luaError (.typerror 2 "number")⟩ := by
  refine ⟨by decide, rfl, by decide, by decide, rfl⟩

/-! ### `w_newTrueTypeRasterizer` -/

/-- The run of `w_newTrueTypeRasterizer` with a number in argument 1. -/
theorem truetype_size_eval (env : Env) (L : Stack) (x : LuaNumber)
    (h1 : index2adr L 1 = some (.number x)) :
    w_newTrueTypeRasterizer env L =
      match env.core (.newTrueTypeRasterizerSize (toInt32 x)) with
      | .ok t => ⟨[.call (.newTrueTypeRasterizerSize (toInt32 x)), .pushtype .rasterizer t,
          .release .rasterizer t], .ok [.userdata .rasterizer t]⟩
      | .error w => ⟨[.call (.newTrueTypeRasterizerSize (toInt32 x))],
          .luaError (.exception w)⟩ := by
  cases hc : env.core (.newTrueTypeRasterizerSize (toInt32 x)) <;>
    simp [w_newTrueTypeRasterizer, lua_type, h1, ttype, bind_def, pure_def, Run.bind,
      Run.pure, luaL_checkint, luax_catchexcept1, luax_catchexcept, coreCall, hc, luax_pushtype,
      emit]

/-- With a number in argument 1 the run depends on that number only. -/
theorem truetype_size_run (env : Env) (L : Stack) (x : LuaNumber)
    (h1 : index2adr L 1 = some (.number x)) :
    w_newTrueTypeRasterizer env L = w_newTrueTypeRasterizer env [.number x] ∧
    coreCalls (w_newTrueTypeRasterizer env L).events
      = [.newTrueTypeRasterizerSize (toInt32 x)] := by
  constructor
  · rw [truetype_size_eval env L x h1, truetype_size_eval env [.number x] x rfl]
  · rw [truetype_size_eval env L x h1]
    cases env.core (.newTrueTypeRasterizerSize (toInt32 x)) <;> simp [coreCalls]

/-- C1 (as amended): when argument 2 is a number, or argument 2 is absent or
nil and argument 1 is a number, `w_newRasterizer` is `w_newTrueTypeRasterizer`
on the same arguments (same events, same outcome). For every other argument
list it makes no TrueType core call, and with an argument 2 that is present
and not nil it is `w_newBMFontRasterizer`. When argument 2 is absent or nil and
argument 1 is a number, the single core call is the built-in font constructor
`newTrueTypeRasterizer(size)` with `size` the `int` conversion of argument 1,
which is the value of argument 1 without its fraction whenever that lies in
the range of `int`. -/
theorem w_newRasterizer_truetype_path (env : Env) (L : Stack) :
    ((lua_type L 2 = LUA_TNUMBER ∨ (lua_isnoneornil L 2 = true ∧ lua_type L 1 = LUA_TNUMBER)) →
      w_newRasterizer env L = w_newTrueTypeRasterizer env L) ∧
    (¬ (lua_type L 2 = LUA_TNUMBER ∨ (lua_isnoneornil L 2 = true ∧ lua_type L 1 = LUA_TNUMBER)) →
      (∀ c ∈ coreCalls (w_newRasterizer env L).events, c.isTrueType = false) ∧
      (lua_isnoneornil L 2 = false → w_newRasterizer env L = w_newBMFontRasterizer env L)) ∧
    (∀ x, lua_isnoneornil L 2 = true → index2adr L 1 = some (.number x) →
      coreCalls (w_newRasterizer env L).events
        = [.newTrueTypeRasterizerSize (toInt32 x)] ∧
      (∀ t, x.trunc = some t → -2147483648 ≤ t → t < 2147483648 →
        coreCalls (w_newRasterizer env L).events = [.newTrueTypeRasterizerSize t])) := by
  refine ⟨?_, ?_, ?_⟩
  · rintro (h | ⟨h2, h1⟩)
    · have hnn : lua_isnoneornil L 2 = false := by
        simp [lua_isnoneornil, h, LUA_TNUMBER]
      simp [w_newRasterizer, hnn, h]
    · simp [w_newRasterizer, h2, h1]
  · intro hcond
    have hcond2 := not_or.1 hcond
    by_cases h2 : lua_isnoneornil L 2 = true
    · have h1 : lua_type L 1 ≠ LUA_TNUMBER := fun h => hcond2.2 ⟨h2, h⟩
      refine ⟨?_, fun hf => by rw [h2] at hf; cases hf⟩
      intro c hc
      cases hd : env.getfiledata (index2adr L 1) with
      | error e =>
        simp [w_newRasterizer, h2, h1, bind_def, Run.bind, luax_getfiledata, hd,
          coreCalls] at hc
      | ok d =>
        cases ht : env.core (.newRasterizer d) with
        | ok t =>
          rw [generic_ok env L d t h2 h1 hd ht] at hc
          simp [coreCalls] at hc
          subst hc
          rfl
        | error w =>
          rw [generic_throws env L d w h2 h1 hd ht] at hc
          simp [coreCalls] at hc
          subst hc
          rfl
    · have heq : w_newRasterizer env L = w_newBMFontRasterizer env L := by
        simp [w_newRasterizer, h2, hcond2.1]
      refine ⟨?_, fun _ => heq⟩
      intro c hc
      rw [heq] at hc
      obtain ⟨d, images, hdc⟩ := bmfont_only_bmfont env L c hc
      subst hdc
      rfl
  · intro x h2 h1
    have ht : lua_type L 1 = LUA_TNUMBER := (lua_type_number_iff L 1).2 ⟨x, h1⟩
    have hcalls : coreCalls (w_newRasterizer env L).events
        = [.newTrueTypeRasterizerSize (toInt32 x)] := by
      simp only [w_newRasterizer, h2, ht, if_true]
      exact (truetype_size_run env L x h1).2
    refine ⟨hcalls, ?_⟩
    intro t htr hlo hhi
    rw [hcalls, toInt32_of_trunc x t htr hlo hhi]

/-- C1 (as amended) at `(14)` and `(FileData 1, 20)`. -/
theorem w_newRasterizer_truetype_path_witness :
    (lua_isnoneornil [LuaValue.number (.ofInt 14)] 2 = true ∧
      lua_type [LuaValue.number (.ofInt 14)] 1 = LUA_TNUMBER) ∧
    w_newRasterizer (sampleEnv coreOk) [.number (.ofInt 14)]
      = w_newTrueTypeRasterizer (sampleEnv coreOk) [.number (.ofInt 14)] ∧
    coreCalls (w_newRasterizer (sampleEnv coreOk) [.number (.ofInt 14)]).events
      = [.newTrueTypeRasterizerSize 14] ∧
    lua_type [LuaValue.userdata .fileData 1, .number (.ofInt 20)] 2 = LUA_TNUMBER ∧
    w_newRasterizer (sampleEnv coreOk) [.userdata .fileData 1, .number (.ofInt 20)]
      = w_newTrueTypeRasterizer (sampleEnv coreOk)
          [.userdata .fileData 1, .number (.ofInt 20)] :=
  ⟨⟨by decide, by decide⟩,
   (w_newRasterizer_truetype_path (sampleEnv coreOk) [.number (.ofInt 14)]).1
      (Or.inr ⟨by decide, by decide⟩),
   ((w_newRasterizer_truetype_path (sampleEnv coreOk) [.number (.ofInt 14)]).2.2
      (.ofInt 14) (by decide) rfl).2 14 (by decide) (by decide) (by decide),
   by decide,
   (w_newRasterizer_truetype_path (sampleEnv coreOk)
      [.userdata .fileData 1, .number (.ofInt 20)]).1 (Or.inl (by decide))⟩

/-- C1 as stated fails in the direction "only if": on `newRasterizer()` and on
`newRasterizer(true)` argument 2 is absent and argument 1 is not a number, yet
the run of `w_newRasterizer` is exactly that of `w_newTrueTypeRasterizer` on the
same arguments: both raise the argument error of `luax_getfiledata` before any
core call. -/
theorem w_newRasterizer_truetype_path_counterexample :
    ¬ (lua_type [] 2 = LUA_TNUMBER ∨
        (lua_isnoneornil [] 2 = true ∧ lua_type [] 1 = LUA_TNUMBER)) ∧
    w_newRasterizer (sampleEnv coreOk) []
      = ⟨[], .luaError (.argerror 1 "filename, File, or FileData expected")⟩ ∧
    w_newRasterizer (sampleEnv coreOk) [] = w_newTrueTypeRasterizer (sampleEnv coreOk) [] ∧
    ¬ (lua_type [LuaValue.boolean true] 2 = LUA_TNUMBER ∨
        (lua_isnoneornil [LuaValue.boolean true] 2 = true ∧
          lua_type [LuaValue.boolean true] 1 = LUA_TNUMBER)) ∧
    w_newRasterizer (sampleEnv coreOk) [.boolean true]
      = w_newTrueTypeRasterizer (sampleEnv coreOk) [.boolean true] := by
  refine ⟨by decide, rfl, rfl, by decide, rfl⟩

end Love.Font
